import Mathlib

/-!
Verification of the Champions-League draw simulator's core
(entity model, declarative constraint set, draw validator)
against its natural-language specification.

The Python source is shallowly embedded: the mutable `Draw` of
`src/models/draw.py` becomes explicit state passing, Python dictionaries
used only through `get`/`set` become functions or association lists, and
raising operations return a `Draw × Option String` pair (post-state plus
optional error), which models "exception raised, object left as is".
-/

/-- Seeding pot (`Chapeau` enum of `src/models/club.py`, values 1..4). -/
inductive Chapeau where
  | chapeau1
  | chapeau2
  | chapeau3
  | chapeau4
deriving DecidableEq

/-- `Chapeau.value`: the integer value of the enum member. -/
def Chapeau.value : Chapeau → Nat
  | .chapeau1 => 1
  | .chapeau2 => 2
  | .chapeau3 => 3
  | .chapeau4 => 4

/-- `Club` of `src/models/club.py`: id, display name, country code, pot. -/
structure Club where
  id : String
  nom : String
  pays : String
  chapeau : Chapeau
deriving DecidableEq

/-- `Club.__eq__`: clubs compare by `id` only. -/
def clubEq (a b : Club) : Bool :=
  a.id == b.id

/-- `Match` of `src/models/match.py`: home club, away club, round number. -/
structure Match where
  club_home : Club
  club_away : Club
  journee : Nat
deriving DecidableEq

/-- `Match.__eq__`: component-wise, with clubs compared by id
(so match identity is `(home.id, away.id, journee)`). -/
def matchEq (a b : Match) : Bool :=
  clubEq a.club_home b.club_home && clubEq a.club_away b.club_away
    && (a.journee == b.journee)

/-- `Match.implies_reverse_match`: swap home and away, keep the round. -/
def implies_reverse_match (m : Match) : Match :=
  { club_home := m.club_away, club_away := m.club_home, journee := m.journee }

/-- `Match.involves_club`. -/
def involves_club (m : Match) (c : Club) : Bool :=
  clubEq c m.club_home || clubEq c m.club_away

/-- `Match.opponent_of`. -/
def opponent_of (m : Match) (c : Club) : Option Club :=
  if clubEq c m.club_home then some m.club_away
  else if clubEq c m.club_away then some m.club_home
  else none

/-- `Draw` of `src/models/draw.py`: match list plus season label.
The source field `matches` is rendered `matchList`, `matches` being a
reserved word in Lean. -/
structure Draw where
  matchList : List Match
  season : String
deriving DecidableEq

namespace config

/-- `config.MATCHES_PER_CLUB`. -/
def MATCHES_PER_CLUB : Nat := 8

/-- `config.JOURNEES`. -/
def JOURNEES : Nat := 8

/-- `config.HOME_MATCHES_PER_CLUB`. -/
def HOME_MATCHES_PER_CLUB : Nat := 4

/-- `config.AWAY_MATCHES_PER_CLUB`. -/
def AWAY_MATCHES_PER_CLUB : Nat := 4

/-- `config.TOTAL_CLUBS`. -/
def TOTAL_CLUBS : Nat := 36

/-- `config.OPPONENTS_PER_CHAPEAU`, a dict with insertion order 1,2,3,4. -/
def OPPONENTS_PER_CHAPEAU : List (Nat × Nat) :=
  [(1, 2), (2, 2), (3, 2), (4, 2)]

/-- `config.MAX_SAME_COUNTRY_OPPONENTS`. -/
def MAX_SAME_COUNTRY_OPPONENTS : Nat := 0

/-- `config.MAX_OPPONENTS_PER_FOREIGN_COUNTRY`. -/
def MAX_OPPONENTS_PER_FOREIGN_COUNTRY : Nat := 2

/-- `config.DISTRIBUTION_CHAPEAUX`, a dict with insertion order 1,2,3,4. -/
def DISTRIBUTION_CHAPEAUX : List (Nat × (Nat × Nat)) :=
  [(1, (1, 1)), (2, (1, 1)), (3, (1, 1)), (4, (1, 1))]

/-- `config.MAX_CONSECUTIVE_HOME_MATCHES`. -/
def MAX_CONSECUTIVE_HOME_MATCHES : Nat := 2

/-- `config.MAX_CONSECUTIVE_AWAY_MATCHES`. -/
def MAX_CONSECUTIVE_AWAY_MATCHES : Nat := 2

/-- `config.get_expected_total_matches`. -/
def get_expected_total_matches : Nat :=
  (TOTAL_CLUBS * MATCHES_PER_CLUB) / 2

end config

namespace Draw

/-- `Draw.add_match`: appends the match, or — when a match with the same
`(home.id, away.id, journee)` identity is already present — raises
`ValueError` and leaves the draw untouched.  The returned pair is
(post-state of the mutable draw, optional raised error). -/
def add_match (d : Draw) (m : Match) : Draw × Option String :=
  if d.matchList.any (fun m2 => matchEq m m2) then
    (d, some ("Le match " ++ m.club_home.id ++ " vs " ++ m.club_away.id
      ++ " est deja present"))
  else
    ({ d with matchList := d.matchList ++ [m] }, none)

/-- `Draw.add_matches`: inserts in list order; the first raised duplicate
error propagates, leaving the previously inserted matches in place. -/
def add_matches (d : Draw) : List Match → Draw × Option String
  | [] => (d, none)
  | m :: rest =>
    match add_match d m with
    | (d2, none) => add_matches d2 rest
    | (d2, some e) => (d2, some e)

/-- `Draw.get_matches_for_club`. -/
def get_matches_for_club (d : Draw) (c : Club) : List Match :=
  d.matchList.filter (fun m => involves_club m c)

/-- `Draw.get_home_matches_for_club` (club equality is id equality). -/
def get_home_matches_for_club (d : Draw) (c : Club) : List Match :=
  d.matchList.filter (fun m => clubEq m.club_home c)

/-- `Draw.get_away_matches_for_club`. -/
def get_away_matches_for_club (d : Draw) (c : Club) : List Match :=
  d.matchList.filter (fun m => clubEq m.club_away c)

/-- Adding a club to a Python `set` of clubs (hash/eq by id): the set keeps
the first representative of each id.  The set is modelled as a list of
pairwise-distinct ids in first-insertion order. -/
def insertClub (acc : List Club) (c : Club) : List Club :=
  if acc.any (fun x => clubEq x c) then acc else acc ++ [c]

/-- `Draw.get_opponents_for_club`: deduplicated opponents, sorted by id. -/
def get_opponents_for_club (d : Draw) (c : Club) : List Club :=
  ((d.get_matches_for_club c).foldl
    (fun acc m =>
      match opponent_of m c with
      | some o => insertClub acc o
      | none => acc) []).mergeSort (fun a b => a.id ≤ b.id)

/-- `Draw.get_number_of_matches_for_club`. -/
def get_number_of_matches_for_club (d : Draw) (c : Club) : Nat :=
  (d.get_matches_for_club c).length

/-- `Draw.get_number_of_home_matches_for_club`. -/
def get_number_of_home_matches_for_club (d : Draw) (c : Club) : Nat :=
  (d.get_home_matches_for_club c).length

/-- `Draw.get_number_of_away_matches_for_club`. -/
def get_number_of_away_matches_for_club (d : Draw) (c : Club) : Nat :=
  (d.get_away_matches_for_club c).length

/-- `Draw.get_all_clubs`: the set of clubs occurring in a match of the
draw, home club added before away club, match by match. -/
def get_all_clubs (d : Draw) : List Club :=
  (d.matchList.flatMap (fun m => [m.club_home, m.club_away])).foldl insertClub []

/-- `Draw.get_country_clashes_for_club`: same-country opponents paired
with the number of matches against them. -/
def get_country_clashes_for_club (d : Draw) (c : Club) : List (Club × Nat) :=
  (d.get_opponents_for_club c).foldl
    (fun acc opp =>
      if opp.pays == c.pays then
        acc ++ [(opp, (d.matchList.filter (fun m =>
          involves_club m c && (opponent_of m c == some opp))).length)]
      else acc) []

end Draw

namespace UCLConstraints

/-- `UCLConstraints._check_total_matches`. -/
def check_total_matches (d : Draw) : Bool :=
  d.matchList.length == config.get_expected_total_matches

/-- `UCLConstraints._check_matches_per_club`: the loop with early
`return False` is a conjunction over the draw's clubs. -/
def check_matches_per_club (d : Draw) : Bool :=
  d.get_all_clubs.all
    (fun club => d.get_number_of_matches_for_club club == config.MATCHES_PER_CLUB)

/-- `UCLConstraints._check_home_away_balance`. -/
def check_home_away_balance (d : Draw) : Bool :=
  d.get_all_clubs.all (fun club =>
    (d.get_number_of_home_matches_for_club club == config.HOME_MATCHES_PER_CLUB)
      && (d.get_number_of_away_matches_for_club club == config.AWAY_MATCHES_PER_CLUB))

/-- The `opponents_by_chapeau` dict of `_check_opponents_per_chapeau`:
built by incrementing one entry per opponent, its lookup with default 0 is
the number of (deduplicated) opponents whose pot has that value. -/
def opponentsByChapeau (d : Draw) (club : Club) (chapeau : Nat) : Nat :=
  ((d.get_opponents_for_club club).filter
    (fun opp => opp.chapeau.value == chapeau)).length

/-- `UCLConstraints._check_opponents_per_chapeau`. -/
def check_opponents_per_chapeau (d : Draw) : Bool :=
  d.get_all_clubs.all (fun club =>
    config.OPPONENTS_PER_CHAPEAU.all (fun ce =>
      opponentsByChapeau d club ce.1 == ce.2))

/-- `UCLConstraints._check_chapeau_home_away_distribution`. -/
def check_chapeau_home_away_distribution (d : Draw) : Bool :=
  d.get_all_clubs.all (fun club =>
    config.DISTRIBUTION_CHAPEAUX.all (fun che =>
      (((d.get_home_matches_for_club club).filter
          (fun m => m.club_away.chapeau.value == che.1)).length == che.2.1)
        && (((d.get_away_matches_for_club club).filter
          (fun m => m.club_home.chapeau.value == che.1)).length == che.2.2)))

/-- `UCLConstraints._check_no_same_country_opponents`. -/
def check_no_same_country_opponents (d : Draw) : Bool :=
  d.get_all_clubs.all (fun club =>
    !(config.MAX_SAME_COUNTRY_OPPONENTS
        < (d.get_country_clashes_for_club club).length))

/-- The per-club loop of `_check_max_two_from_same_foreign_country`: walk
the opponent list with a counts dict (modelled as a function with default
0), skip same-country opponents, and fail as soon as a tally exceeds the
ceiling. -/
def foreignCountLoop (pays : String) (maxPc : Nat) :
    List Club → (String → Nat) → Bool
  | [], _ => true
  | opp :: rest, counts =>
    if opp.pays == pays then foreignCountLoop pays maxPc rest counts
    else
      let c := counts opp.pays + 1
      if maxPc < c then false
      else foreignCountLoop pays maxPc rest
        (fun q => if q == opp.pays then c else counts q)

/-- `UCLConstraints._check_max_two_from_same_foreign_country`. -/
def check_max_two_from_same_foreign_country (d : Draw) : Bool :=
  d.get_all_clubs.all (fun club =>
    foreignCountLoop club.pays config.MAX_OPPONENTS_PER_FOREIGN_COUNTRY
      (d.get_opponents_for_club club) (fun _ => 0))

/-- The venue-streak loop of `_check_no_consecutive_matches`: `true` in the
sequence stands for the venue letter H, `false` for A; the two counters are
updated exactly as in the source and the check fires after each step. -/
def streakLoop (maxH maxA : Nat) : List Bool → Nat → Nat → Bool
  | [], _, _ => true
  | v :: rest, ch, ca =>
    let ch2 := if v then ch + 1 else 0
    let ca2 := if v then 0 else ca + 1
    if maxH < ch2 || maxA < ca2 then false
    else streakLoop maxH maxA rest ch2 ca2

/-- The home/away sequence of a club: its matches sorted by round, each
mapped to `true` when the club is the home side. -/
def clubSequence (d : Draw) (club : Club) : List Bool :=
  ((d.get_matches_for_club club).mergeSort
    (fun a b => a.journee ≤ b.journee)).map
    (fun m => clubEq m.club_home club)

/-- `UCLConstraints._check_no_consecutive_matches`. -/
def check_no_consecutive_matches (d : Draw) : Bool :=
  d.get_all_clubs.all (fun club =>
    streakLoop config.MAX_CONSECUTIVE_HOME_MATCHES
      config.MAX_CONSECUTIVE_AWAY_MATCHES (clubSequence d club) 0 0)

end UCLConstraints

/-- `ConstraintType` of `src/constraints/ucl_constraints.py`. -/
inductive ConstraintType where
  | unary
  | binary
  | globalC
  | soft
deriving DecidableEq

/-- `Constraint` of `src/constraints/ucl_constraints.py`. -/
structure Constraint where
  name : String
  constraint_type : ConstraintType
  check_fn : Draw → Bool
  severity : String
  description : String

/-- `Constraint.is_satisfied`. -/
def Constraint.is_satisfied (c : Constraint) (d : Draw) : Bool :=
  c.check_fn d

namespace UCLConstraints

/-- `UCLConstraints._build_constraints`: the eight rules in registration
order (descriptions elided to short tags). -/
def constraints : List Constraint :=
  [ { name := "total_matches", constraint_type := .globalC,
      check_fn := check_total_matches, severity := "hard",
      description := "nombre total de matchs" },
    { name := "matches_per_club", constraint_type := .unary,
      check_fn := check_matches_per_club, severity := "hard",
      description := "nombre de matchs par club" },
    { name := "home_away_balance", constraint_type := .unary,
      check_fn := check_home_away_balance, severity := "hard",
      description := "balance domicile exterieur" },
    { name := "opponents_per_chapeau", constraint_type := .unary,
      check_fn := check_opponents_per_chapeau, severity := "hard",
      description := "adversaires par chapeau" },
    { name := "chapeau_home_away_distribution", constraint_type := .unary,
      check_fn := check_chapeau_home_away_distribution, severity := "hard",
      description := "distribution par chapeau" },
    { name := "no_same_country_opponents", constraint_type := .binary,
      check_fn := check_no_same_country_opponents, severity := "hard",
      description := "pas de meme pays" },
    { name := "max_two_from_same_foreign_country", constraint_type := .unary,
      check_fn := check_max_two_from_same_foreign_country, severity := "hard",
      description := "au plus deux par autre association" },
    { name := "no_consecutive_matches", constraint_type := .unary,
      check_fn := check_no_consecutive_matches, severity := "soft",
      description := "limite les matchs consecutifs" } ]

/-- `UCLConstraints.get_all_constraints`. -/
def get_all_constraints : List Constraint :=
  constraints

/-- `UCLConstraints.get_hard_constraints`. -/
def get_hard_constraints : List Constraint :=
  constraints.filter (fun c => c.severity == "hard")

/-- `UCLConstraints.get_soft_constraints`. -/
def get_soft_constraints : List Constraint :=
  constraints.filter (fun c => c.severity == "soft")

/-- The accumulation loop shared by `verify_all_constraints` and
`verify_hard_constraints`: append the name of every unsatisfied rule. -/
def violatedLoop (cs : List Constraint) (d : Draw) (acc : List String) :
    List String :=
  cs.foldl (fun vs c => if c.is_satisfied d then vs else vs ++ [c.name]) acc

/-- `UCLConstraints.verify_all_constraints`. -/
def verify_all_constraints (d : Draw) : Bool × List String :=
  let violated := violatedLoop constraints d []
  (violated.length == 0, violated)

/-- `UCLConstraints.verify_hard_constraints`. -/
def verify_hard_constraints (d : Draw) : Bool × List String :=
  let violated := violatedLoop get_hard_constraints d []
  (violated.length == 0, violated)

end UCLConstraints

namespace DrawValidator

/-- The `per_day_per_club` dict of `_check_internal_consistency`: each
match increments the entry of its home club's id and the entry of its away
club's id at its round; the lookup with default 0 is therefore the sum of
the two occurrence counts. -/
def perDayPerClub (d : Draw) (id : String) (day : Nat) : Nat :=
  (d.matchList.filter
    (fun m => (m.club_home.id == id) && (m.journee == day))).length
    + (d.matchList.filter
      (fun m => (m.club_away.id == id) && (m.journee == day))).length

/-- The `home_count` dict: matches whose home club has the given id. -/
def homeCount (d : Draw) (id : String) : Nat :=
  (d.matchList.filter (fun m => m.club_home.id == id)).length

/-- The `away_count` dict: matches whose away club has the given id. -/
def awayCount (d : Draw) (id : String) : Nat :=
  (d.matchList.filter (fun m => m.club_away.id == id)).length

/-- `tuple(sorted((home.id, away.id)))`: the unordered pair key. -/
def sortedPair (a b : String) : String × String :=
  if b < a then (b, a) else (a, b)

/-- Adding a round number to a Python `set` of rounds (list of distinct
elements in insertion order). -/
def addToSet (s : List Nat) (j : Nat) : List Nat :=
  if s.contains j then s else s ++ [j]

/-- One step of building the `pair_days` dict:
`pair_days.setdefault(key, set()).add(m.journee)`. -/
def addPairDay (acc : List ((String × String) × List Nat))
    (k : String × String) (j : Nat) : List ((String × String) × List Nat) :=
  if acc.any (fun e => e.1 == k) then
    acc.map (fun e => if e.1 == k then (e.1, addToSet e.2 j) else e)
  else acc ++ [(k, [j])]

/-- The `pair_days` dict in key-insertion order. -/
def pairDays (d : Draw) : List ((String × String) × List Nat) :=
  d.matchList.foldl
    (fun acc m => addPairDay acc (sortedPair m.club_home.id m.club_away.id)
      m.journee) []

/-- Part (a) of `_check_internal_consistency`: per match, a self-match
error then a round-bounds error. -/
def selfAndBoundsErrors (d : Draw) : List String :=
  d.matchList.flatMap (fun m =>
    (if m.club_home.id == m.club_away.id then
      ["Self-match interdit: club " ++ m.club_home.id ++ " a la J"
        ++ toString m.journee]
    else [])
    ++ (if 1 ≤ m.journee ∧ m.journee ≤ config.JOURNEES then []
        else ["Journee hors bornes: " ++ toString m.journee ++ " (match "
          ++ m.club_home.id ++ "-" ++ m.club_away.id ++ ")"]))

/-- Part (b): global match total. -/
def totalErrors (d : Draw) : List String :=
  if d.matchList.length == config.get_expected_total_matches then []
  else ["Total de matchs " ++ toString d.matchList.length ++ " != attendu "
    ++ toString config.get_expected_total_matches]

/-- Part (c), first half: exactly one match per round and per club. -/
def perDayErrors (d : Draw) : List String :=
  d.get_all_clubs.flatMap (fun club =>
    (List.range' 1 config.JOURNEES).flatMap (fun day =>
      if perDayPerClub d club.id day == 1 then []
      else ["Club " ++ club.id ++ " a " ++ toString (perDayPerClub d club.id day)
        ++ " match(s) a la J" ++ toString day ++ " (attendu: 1)"]))

/-- Part (c), second half: each unordered pair meets on at most one round. -/
def pairErrors (d : Draw) : List String :=
  (pairDays d).flatMap (fun e =>
    if 1 < e.2.length then
      ["Paire jouee plusieurs fois: " ++ e.1.1 ++ " vs " ++ e.1.2]
    else [])

/-- Part (d): per-club home and away counts against the configured
targets. -/
def homeAwayCountErrors (d : Draw) : List String :=
  d.get_all_clubs.flatMap (fun club =>
    (if homeCount d club.id == config.HOME_MATCHES_PER_CLUB then []
     else ["Club " ++ club.id ++ ": " ++ toString (homeCount d club.id)
       ++ " domicile != " ++ toString config.HOME_MATCHES_PER_CLUB])
    ++ (if awayCount d club.id == config.AWAY_MATCHES_PER_CLUB then []
        else ["Club " ++ club.id ++ ": " ++ toString (awayCount d club.id)
          ++ " exterieur != " ++ toString config.AWAY_MATCHES_PER_CLUB]))

/-- `DrawValidator._check_internal_consistency`: parts (a) to (d) in
source order. -/
def check_internal_consistency (d : Draw) : List String :=
  selfAndBoundsErrors d ++ totalErrors d ++ perDayErrors d ++ pairErrors d
    ++ homeAwayCountErrors d

/-- `DrawValidator.validate`: structural layer, then hard constraints
(one aggregated error entry), then soft constraints (one aggregated
warning entry); returns `(len(errors) == 0, errors, warnings)`. -/
def validate (d : Draw) : Bool × List String × List String :=
  let errors := check_internal_consistency d
  let hard := UCLConstraints.verify_hard_constraints d
  let errors := if hard.1 then errors
    else errors
      ++ ["Hard constraints violated: " ++ String.intercalate ", " hard.2]
  let soft_violated := (UCLConstraints.get_soft_constraints.filter
    (fun c => !(c.is_satisfied d))).map (fun c => c.name)
  let warnings :=
    if soft_violated.isEmpty then ([] : List String)
    else ["Soft constraints not satisfied: "
      ++ String.intercalate ", " soft_violated]
  (errors.length == 0, errors, warnings)

end DrawValidator

section VerificationLemmas

open UCLConstraints DrawValidator

/-- The violation-collecting loop prepends its accumulator to the names of
the unsatisfied rules, kept in list (registration) order. -/
theorem violatedLoop_eq (cs : List Constraint) (d : Draw) (acc : List String) :
    violatedLoop cs d acc
      = acc ++ (cs.filter (fun c => !(c.is_satisfied d))).map
          (fun c => c.name) := by
  induction cs generalizing acc with
  | nil => simp [violatedLoop]
  | cons c cs ih =>
    by_cases h : c.is_satisfied d
    · simpa [violatedLoop, h] using ih acc
    · simp only [violatedLoop, List.foldl_cons, Bool.not_eq_true] at *
      simp [h, ih, List.filter_cons]

/-- The hard layer passes exactly when every hard rule is satisfied. -/
theorem verify_hard_fst (d : Draw) :
    (verify_hard_constraints d).1 = true
      ↔ ∀ c ∈ get_hard_constraints, c.is_satisfied d = true := by
  simp only [verify_hard_constraints, violatedLoop_eq, List.nil_append]
  simp [List.length_eq_zero, List.map_eq_nil_iff, List.filter_eq_nil_iff]

end VerificationLemmas

/-- `home_count` lookup of the validator agrees with
`get_number_of_home_matches_for_club` (both count, by id, the matches a
club hosts). -/
theorem homeCount_eq (d : Draw) (c : Club) :
    DrawValidator.homeCount d c.id = d.get_number_of_home_matches_for_club c :=
  rfl

/-- `away_count` lookup of the validator agrees with
`get_number_of_away_matches_for_club`. -/
theorem awayCount_eq (d : Draw) (c : Club) :
    DrawValidator.awayCount d c.id = d.get_number_of_away_matches_for_club c :=
  rfl

/-- C3: evaluating the whole rule set (and the hard subset) consults every
registered rule — the violated-name list is exactly the violated rules of
the full registration-order list, no rule being skipped after an earlier
failure — and the overall verdict is "no rule violated". -/
theorem claim_C3_rule_evaluation_order (d : Draw) :
    (UCLConstraints.verify_all_constraints d).2
        = (UCLConstraints.constraints.filter
            (fun c => !(c.is_satisfied d))).map (fun c => c.name)
      ∧ (UCLConstraints.verify_hard_constraints d).2
        = (UCLConstraints.get_hard_constraints.filter
            (fun c => !(c.is_satisfied d))).map (fun c => c.name)
      ∧ ((UCLConstraints.verify_all_constraints d).1 = true
          ↔ ∀ c ∈ UCLConstraints.constraints, c.is_satisfied d = true) := by
  refine ⟨?_, ?_, ?_⟩
  · simp [UCLConstraints.verify_all_constraints, violatedLoop_eq]
  · simp [UCLConstraints.verify_hard_constraints, violatedLoop_eq]
  · simp [UCLConstraints.verify_all_constraints, violatedLoop_eq,
      List.length_eq_zero, List.map_eq_nil_iff, List.filter_eq_nil_iff]

/-- C1: `validate` passes iff the structural layer reports no error and
every hard constraint is satisfied; the warning list is governed solely by
the soft rule (the draw's venue-streak rule) and soft violations never
touch the verdict. -/
theorem claim_C1_validate_verdict (d : Draw) :
    ((DrawValidator.validate d).1 = true
        ↔ DrawValidator.check_internal_consistency d = []
          ∧ ∀ c ∈ UCLConstraints.get_hard_constraints, c.is_satisfied d = true)
      ∧ ((DrawValidator.validate d).2.2 = []
        ↔ UCLConstraints.check_no_consecutive_matches d = true) := by
  constructor
  · rw [← verify_hard_fst d]
    unfold DrawValidator.validate
    cases h : (UCLConstraints.verify_hard_constraints d).1 <;>
      simp [h, List.length_eq_zero]
  · unfold DrawValidator.validate
    simp only [UCLConstraints.get_soft_constraints, UCLConstraints.constraints]
    by_cases h : UCLConstraints.check_no_consecutive_matches d = true <;>
      simp [h, List.filter, Constraint.is_satisfied]

/-- C8: `validate` is a total function that always returns the full
three-layer report: the error list is the structural diagnostics followed
by the aggregated hard-constraint entry (present exactly when some hard
rule fails), and the warning list is the aggregated soft entry (present
exactly when some soft rule fails) — no layer is skipped, whatever the
draw. -/
theorem claim_C8_validate_total_report (d : Draw) :
    (DrawValidator.validate d).2.1
        = DrawValidator.check_internal_consistency d
          ++ (if (UCLConstraints.verify_hard_constraints d).1 then []
              else ["Hard constraints violated: " ++ String.intercalate ", "
                (UCLConstraints.verify_hard_constraints d).2])
      ∧ (DrawValidator.validate d).2.2
        = (if ((UCLConstraints.get_soft_constraints.filter
              (fun c => !(c.is_satisfied d))).map (fun c => c.name)).isEmpty
            then []
            else ["Soft constraints not satisfied: " ++ String.intercalate ", "
              ((UCLConstraints.get_soft_constraints.filter
                (fun c => !(c.is_satisfied d))).map (fun c => c.name))]) := by
  unfold DrawValidator.validate
  cases h : (UCLConstraints.verify_hard_constraints d).1 <;> simp [h]

/-- C7: `add_match` raises exactly when a match with the same
`(home.id, away.id, round)` identity is already present; on that error the
draw is unchanged, and otherwise the match is appended with no rule
evaluated (the success condition mentions only the duplicate test). -/
theorem claim_C7_add_match_duplicate (d : Draw) (m : Match) :
    ((Draw.add_match d m).2.isSome
        = d.matchList.any (fun m2 => matchEq m m2))
      ∧ ((Draw.add_match d m).2.isSome = true → (Draw.add_match d m).1 = d)
      ∧ (d.matchList.any (fun m2 => matchEq m m2) = false →
          Draw.add_match d m
            = ({ matchList := d.matchList ++ [m], season := d.season },
                none)) := by
  unfold Draw.add_match
  cases h : d.matchList.any (fun m2 => matchEq m m2) <;> simp [h]

/-- C9: the derived reverse match keeps the round, differs from the
original under match identity (for a valid match, whose clubs differ),
and reversing twice returns the original match, which is never derived
into any draw state. -/
theorem claim_C9_reverse_match (m : Match)
    (h : m.club_home.id ≠ m.club_away.id) :
    matchEq (implies_reverse_match m) m = false
      ∧ (implies_reverse_match m).journee = m.journee
      ∧ implies_reverse_match (implies_reverse_match m) = m
      ∧ matchEq (implies_reverse_match (implies_reverse_match m)) m
        = true := by
  refine ⟨?_, rfl, rfl, ?_⟩
  · have hba : (m.club_away.id == m.club_home.id) = false :=
      beq_false_of_ne (fun e => h e.symm)
    simp [matchEq, clubEq, implies_reverse_match, hba]
  · simp [matchEq, clubEq, implies_reverse_match]

/-- A concrete pot-1 French club used in witnesses. -/
def clubPSG : Club :=
  { id := "PSG", nom := "Paris SG", pays := "FRA", chapeau := .chapeau1 }

/-- A concrete pot-1 Spanish club used in witnesses. -/
def clubRMA : Club :=
  { id := "RMA", nom := "Real Madrid", pays := "ESP", chapeau := .chapeau1 }

/-- A concrete round-3 match used in witnesses. -/
def matchPSGvRMA : Match :=
  { club_home := clubPSG, club_away := clubRMA, journee := 3 }

/-- Witness for C9 at the concrete round-3 match. -/
theorem claim_C9_reverse_match_witness :
    matchPSGvRMA.club_home.id ≠ matchPSGvRMA.club_away.id
      ∧ (matchEq (implies_reverse_match matchPSGvRMA) matchPSGvRMA = false
        ∧ (implies_reverse_match matchPSGvRMA).journee = matchPSGvRMA.journee
        ∧ implies_reverse_match (implies_reverse_match matchPSGvRMA)
            = matchPSGvRMA
        ∧ matchEq
            (implies_reverse_match (implies_reverse_match matchPSGvRMA))
            matchPSGvRMA = true) :=
  ⟨by decide, claim_C9_reverse_match matchPSGvRMA (by decide)⟩

/-- C4: the validator's per-club home/away structural check (part (d) of
`_check_internal_consistency`) reports at least one error exactly when the
hard rule `home_away_balance` fails — the two layers agree on every
draw. -/
theorem claim_C4_structural_matches_rule3 (d : Draw) :
    DrawValidator.homeAwayCountErrors d ≠ []
      ↔ UCLConstraints.check_home_away_balance d = false := by
  have key : DrawValidator.homeAwayCountErrors d = []
      ↔ UCLConstraints.check_home_away_balance d = true := by
    rw [DrawValidator.homeAwayCountErrors,
      UCLConstraints.check_home_away_balance, List.flatMap_eq_nil_iff,
      List.all_eq_true]
    refine forall_congr' (fun club => imp_congr_right (fun _ => ?_))
    rw [List.append_eq_nil, homeCount_eq, awayCount_eq]
    by_cases hh : (d.get_number_of_home_matches_for_club club
          == config.HOME_MATCHES_PER_CLUB) = true <;>
      by_cases ha : (d.get_number_of_away_matches_for_club club
          == config.AWAY_MATCHES_PER_CLUB) = true <;>
      simp [hh, ha]
  constructor
  · intro hne
    cases hcb : UCLConstraints.check_home_away_balance d
    · rfl
    · exact absurd (key.mpr hcb) hne
  · intro hf hnil
    rw [key.mp hnil] at hf
    cases hf

/-- Invariant of the per-club counts loop of
`_check_max_two_from_same_foreign_country`: the loop accepts exactly when,
for every country other than the club's own that occurs among the
remaining opponents, the running tally plus the occurrences stays within
the ceiling. -/
theorem foreignCountLoop_iff (pays : String) (maxPc : Nat) :
    ∀ (opps : List Club) (counts : String → Nat),
    UCLConstraints.foreignCountLoop pays maxPc opps counts = true
      ↔ ∀ p : String, p ≠ pays →
          0 < (opps.filter (fun o => o.pays == p)).length →
          counts p + (opps.filter (fun o => o.pays == p)).length ≤ maxPc := by
  intro opps
  induction opps with
  | nil =>
    intro counts
    simp [UCLConstraints.foreignCountLoop]
  | cons opp rest ih =>
    intro counts
    by_cases h : opp.pays = pays
    · have hb : (opp.pays == pays) = true := by simp [h]
      have hfilter : ∀ p : String, p ≠ pays →
          (opp :: rest).filter (fun o => o.pays == p)
            = rest.filter (fun o => o.pays == p) := by
        intro p hp
        have hfalse : (opp.pays == p) = false := by
          rw [h]
          exact beq_false_of_ne (Ne.symm hp)
        simp [List.filter_cons, hfalse]
      rw [show UCLConstraints.foreignCountLoop pays maxPc (opp :: rest) counts
          = UCLConstraints.foreignCountLoop pays maxPc rest counts by
        simp [UCLConstraints.foreignCountLoop, hb]]
      rw [ih counts]
      refine forall_congr' fun p => ?_
      by_cases hp : p = pays
      · simp [hp]
      · rw [hfilter p hp]
    · have hb : (opp.pays == pays) = false := beq_false_of_ne h
      by_cases hc : maxPc < counts opp.pays + 1
      · rw [show UCLConstraints.foreignCountLoop pays maxPc (opp :: rest) counts
            = false by simp [UCLConstraints.foreignCountLoop, hb, hc]]
        refine iff_of_false (by simp) ?_
        intro hRHS
        have hfl : (opp :: rest).filter (fun o => o.pays == opp.pays)
            = opp :: rest.filter (fun o => o.pays == opp.pays) := by
          simp [List.filter_cons]
        have hbound := hRHS opp.pays h (by rw [hfl]; simp)
        rw [hfl] at hbound
        simp only [List.length_cons] at hbound
        omega
      · rw [show UCLConstraints.foreignCountLoop pays maxPc (opp :: rest) counts
            = UCLConstraints.foreignCountLoop pays maxPc rest
                (fun q => if q == opp.pays then counts opp.pays + 1
                  else counts q) by
          simp [UCLConstraints.foreignCountLoop, hb, hc]]
        rw [ih _]
        constructor
        · intro hr p hp hpos
          by_cases hpo : p = opp.pays
          · have hbt : (opp.pays == p) = true := by
              rw [hpo]
              simp
            have hpb : (p == opp.pays) = true := by
              rw [hpo]
              simp
            have hfl : (opp :: rest).filter (fun o => o.pays == p)
                = opp :: rest.filter (fun o => o.pays == p) := by
              simp [List.filter_cons, hbt]
            have hcntp : counts opp.pays = counts p := by
              rw [hpo]
            rw [hfl, List.length_cons]
            by_cases hrest : 0 < (rest.filter (fun o => o.pays == p)).length
            · have hstep := hr p hp hrest
              rw [if_pos hpb] at hstep
              omega
            · have hzero : (rest.filter (fun o => o.pays == p)).length = 0 := by
                omega
              rw [hzero]
              omega
          · have hfalse : (opp.pays == p) = false :=
              beq_false_of_ne (Ne.symm hpo)
            have hfl : (opp :: rest).filter (fun o => o.pays == p)
                = rest.filter (fun o => o.pays == p) := by
              simp [List.filter_cons, hfalse]
            rw [hfl] at hpos ⊢
            have hstep := hr p hp hpos
            have hne : (p == opp.pays) = false := beq_false_of_ne hpo
            simpa [hne] using hstep
        · intro hs p hp hpos
          by_cases hpo : p = opp.pays
          · have hbt : (opp.pays == p) = true := by
              rw [hpo]
              simp
            have hpb : (p == opp.pays) = true := by
              rw [hpo]
              simp
            have hfl : (opp :: rest).filter (fun o => o.pays == p)
                = opp :: rest.filter (fun o => o.pays == p) := by
              simp [List.filter_cons, hbt]
            have hcntp : counts opp.pays = counts p := by
              rw [hpo]
            have hbound := hs p hp (by rw [hfl]; simp)
            rw [hfl, List.length_cons] at hbound
            rw [if_pos hpb]
            omega
          · have hfalse : (opp.pays == p) = false :=
              beq_false_of_ne (Ne.symm hpo)
            have hfl : (opp :: rest).filter (fun o => o.pays == p)
                = rest.filter (fun o => o.pays == p) := by
              simp [List.filter_cons, hfalse]
            have hbound := hs p hp (by rw [hfl]; exact hpos)
            rw [hfl] at hbound
            have hne : (p == opp.pays) = false := beq_false_of_ne hpo
            simpa [hne] using hbound

/-- C5: the foreign-country rule holds iff every club of the draw has at
most the configured ceiling (2) of distinct opponents from any single
country other than its own; same-country opponents contribute to no
tally. -/
theorem claim_C5_foreign_country_ceiling (d : Draw) :
    (UCLConstraints.check_max_two_from_same_foreign_country d = true
      ↔ ∀ c ∈ d.get_all_clubs, ∀ p : String, p ≠ c.pays →
          ((d.get_opponents_for_club c).filter
            (fun o => o.pays == p)).length
            ≤ config.MAX_OPPONENTS_PER_FOREIGN_COUNTRY)
      ∧ config.MAX_OPPONENTS_PER_FOREIGN_COUNTRY = 2 := by
  refine ⟨?_, rfl⟩
  rw [UCLConstraints.check_max_two_from_same_foreign_country,
    List.all_eq_true]
  refine forall_congr' fun c => imp_congr_right fun _ => ?_
  rw [foreignCountLoop_iff]
  constructor
  · intro hl p hp
    by_cases hpos :
        0 < ((d.get_opponents_for_club c).filter (fun o => o.pays == p)).length
    · simpa using hl p hp hpos
    · omega
  · intro hr p hp _
    simpa using hr p hp

/-- The home/away sequence `s` begins with `k` consecutive occurrences of
venue `v` (`true` = home). -/
def startsRun (v : Bool) (k : Nat) (s : List Bool) : Prop :=
  ∃ post, s = List.replicate k v ++ post

/-- The home/away sequence `s` contains somewhere a run of `k` consecutive
occurrences of venue `v`. -/
def hasRun (v : Bool) (k : Nat) (s : List Bool) : Prop :=
  ∃ pre post, s = pre ++ List.replicate k v ++ post

/-- An empty sequence starts no positive run. -/
theorem startsRun_nil_succ (v : Bool) (k : Nat) :
    ¬ startsRun v (k + 1) [] := by
  rintro ⟨post, h⟩
  simp [List.replicate_succ] at h

/-- Peeling one element off a starting run. -/
theorem startsRun_cons_succ (v b : Bool) (k : Nat) (s : List Bool) :
    startsRun v (k + 1) (b :: s) ↔ b = v ∧ startsRun v k s := by
  constructor
  · rintro ⟨post, h⟩
    rw [List.replicate_succ, List.cons_append] at h
    simp only [List.cons.injEq] at h
    exact ⟨h.1, post, h.2⟩
  · rintro ⟨hb, post, hs⟩
    exact ⟨post, by rw [List.replicate_succ, List.cons_append, hb, hs]⟩

/-- A long starting run contains every shorter starting run. -/
theorem startsRun_mono (v : Bool) {k k2 : Nat} (h : k ≤ k2) (s : List Bool) :
    startsRun v k2 s → startsRun v k s := by
  rintro ⟨post, hs⟩
  refine ⟨List.replicate (k2 - k) v ++ post, ?_⟩
  rw [hs, ← List.append_assoc, ← List.replicate_add]
  have hk : k + (k2 - k) = k2 := by omega
  rw [hk]

/-- An empty sequence contains no positive run. -/
theorem hasRun_nil_succ (v : Bool) (k : Nat) : ¬ hasRun v (k + 1) [] := by
  rintro ⟨pre, post, h⟩
  simp [List.replicate_succ] at h

/-- A starting run is in particular a contained run. -/
theorem startsRun_hasRun {v : Bool} {k : Nat} {s : List Bool} :
    startsRun v k s → hasRun v k s := by
  rintro ⟨post, h⟩
  exact ⟨[], post, by simpa using h⟩

/-- A run in `b :: s` either starts at the head or lies in the tail. -/
theorem hasRun_cons (v b : Bool) (k : Nat) (s : List Bool) :
    hasRun v k (b :: s) ↔ startsRun v k (b :: s) ∨ hasRun v k s := by
  constructor
  · rintro ⟨pre, post, h⟩
    cases pre with
    | nil => exact Or.inl ⟨post, by simpa using h⟩
    | cons x pre2 =>
      simp only [List.cons_append, List.cons.injEq] at h
      exact Or.inr ⟨pre2, post, h.2⟩
  · rintro (⟨post, h⟩ | ⟨pre, post, h⟩)
    · exact ⟨[], post, by simpa using h⟩
    · exact ⟨b :: pre, post, by simp [h]⟩

/-- Invariant of the venue-streak loop of `_check_no_consecutive_matches`:
starting with trailing-streak counters `ch` and `ca` still within bounds,
the loop accepts exactly when the sequence neither completes the current
trailing streak to an overlong one nor contains an overlong run of either
venue. -/
theorem streakLoop_iff (maxH maxA : Nat) :
    ∀ (s : List Bool) (ch ca : Nat), ch ≤ maxH → ca ≤ maxA →
    (UCLConstraints.streakLoop maxH maxA s ch ca = true
      ↔ ¬ startsRun true (maxH + 1 - ch) s
        ∧ ¬ startsRun false (maxA + 1 - ca) s
        ∧ ¬ hasRun true (maxH + 1) s
        ∧ ¬ hasRun false (maxA + 1) s) := by
  intro s
  induction s with
  | nil =>
    intro ch ca hch hca
    have e1 : maxH + 1 - ch = (maxH - ch) + 1 := by omega
    have e2 : maxA + 1 - ca = (maxA - ca) + 1 := by omega
    rw [e1, e2]
    simp [UCLConstraints.streakLoop, startsRun_nil_succ, hasRun_nil_succ]
  | cons v rest ih =>
    intro ch ca hch hca
    cases v with
    | true =>
      by_cases hlim : maxH < ch + 1
      · rw [show UCLConstraints.streakLoop maxH maxA (true :: rest) ch ca
            = false by simp [UCLConstraints.streakLoop, hlim]]
        refine iff_of_false (by simp) ?_
        rintro ⟨h1, _, _, _⟩
        apply h1
        have e1 : maxH + 1 - ch = 1 := by omega
        rw [e1]
        exact ⟨rest, by simp⟩
      · rw [show UCLConstraints.streakLoop maxH maxA (true :: rest) ch ca
            = UCLConstraints.streakLoop maxH maxA rest (ch + 1) 0 by
          simp [UCLConstraints.streakLoop, hlim]]
        rw [ih (ch + 1) 0 (by omega) (Nat.zero_le _)]
        have esH2 : maxH + 1 - (ch + 1) = maxH - ch := by omega
        have esH : maxH + 1 - ch = (maxH - ch) + 1 := by omega
        have esA : maxA + 1 - ca = (maxA - ca) + 1 := by omega
        rw [esH2, esH, esA, Nat.sub_zero]
        constructor
        · rintro ⟨hA, hB, hC, hD⟩
          refine ⟨?_, ?_, ?_, ?_⟩
          · rw [startsRun_cons_succ]
            rintro ⟨_, hs⟩
            exact hA hs
          · rw [startsRun_cons_succ]
            rintro ⟨hfv, _⟩
            cases hfv
          · rw [hasRun_cons]
            rintro (hs | hr)
            · have htail := ((startsRun_cons_succ true true maxH rest).mp hs).2
              exact hA (startsRun_mono true (by omega) rest htail)
            · exact hC hr
          · rw [hasRun_cons]
            rintro (hs | hr)
            · have hhead := ((startsRun_cons_succ false true maxA rest).mp hs).1
              cases hhead
            · exact hD hr
        · rintro ⟨hA, hB, hC, hD⟩
          refine ⟨?_, ?_, ?_, ?_⟩
          · intro hs
            exact hA
              ((startsRun_cons_succ true true (maxH - ch) rest).mpr ⟨rfl, hs⟩)
          · intro hs
            exact hD ((hasRun_cons false true (maxA + 1) rest).mpr
              (Or.inr (startsRun_hasRun hs)))
          · intro hr
            exact hC ((hasRun_cons true true (maxH + 1) rest).mpr (Or.inr hr))
          · intro hr
            exact hD ((hasRun_cons false true (maxA + 1) rest).mpr (Or.inr hr))
    | false =>
      by_cases hlim : maxA < ca + 1
      · rw [show UCLConstraints.streakLoop maxH maxA (false :: rest) ch ca
            = false by simp [UCLConstraints.streakLoop, hlim]]
        refine iff_of_false (by simp) ?_
        rintro ⟨_, h2, _, _⟩
        apply h2
        have e2 : maxA + 1 - ca = 1 := by omega
        rw [e2]
        exact ⟨rest, by simp⟩
      · rw [show UCLConstraints.streakLoop maxH maxA (false :: rest) ch ca
            = UCLConstraints.streakLoop maxH maxA rest 0 (ca + 1) by
          simp [UCLConstraints.streakLoop, hlim]]
        rw [ih 0 (ca + 1) (Nat.zero_le _) (by omega)]
        have esA2 : maxA + 1 - (ca + 1) = maxA - ca := by omega
        have esA : maxA + 1 - ca = (maxA - ca) + 1 := by omega
        have esH : maxH + 1 - ch = (maxH - ch) + 1 := by omega
        rw [esA2, esA, esH, Nat.sub_zero]
        constructor
        · rintro ⟨hA, hB, hC, hD⟩
          refine ⟨?_, ?_, ?_, ?_⟩
          · rw [startsRun_cons_succ]
            rintro ⟨hfv, _⟩
            cases hfv
          · rw [startsRun_cons_succ]
            rintro ⟨_, hs⟩
            exact hB hs
          · rw [hasRun_cons]
            rintro (hs | hr)
            · have hhead := ((startsRun_cons_succ true false maxH rest).mp hs).1
              cases hhead
            · exact hC hr
          · rw [hasRun_cons]
            rintro (hs | hr)
            · have htail := ((startsRun_cons_succ false false maxA rest).mp hs).2
              exact hB (startsRun_mono false (by omega) rest htail)
            · exact hD hr
        · rintro ⟨hA, hB, hC, hD⟩
          refine ⟨?_, ?_, ?_, ?_⟩
          · intro hs
            exact hC ((hasRun_cons true false (maxH + 1) rest).mpr
              (Or.inr (startsRun_hasRun hs)))
          · intro hs
            exact hB
              ((startsRun_cons_succ false false (maxA - ca) rest).mpr ⟨rfl, hs⟩)
          · intro hr
            exact hC ((hasRun_cons true false (maxH + 1) rest).mpr (Or.inr hr))
          · intro hr
            exact hD ((hasRun_cons false false (maxA + 1) rest).mpr (Or.inr hr))

/-- C6: the soft streak rule holds iff, for every club of the draw, the
home/away sequence of its matches sorted by round contains no run of more
than the configured maximum (2) of consecutive home venues and no run of
more than the configured maximum (2) of consecutive away venues. -/
theorem claim_C6_streak_rule (d : Draw) :
    UCLConstraints.check_no_consecutive_matches d = true
      ↔ ∀ c ∈ d.get_all_clubs,
          ¬ hasRun true (config.MAX_CONSECUTIVE_HOME_MATCHES + 1)
              (UCLConstraints.clubSequence d c)
            ∧ ¬ hasRun false (config.MAX_CONSECUTIVE_AWAY_MATCHES + 1)
              (UCLConstraints.clubSequence d c) := by
  rw [UCLConstraints.check_no_consecutive_matches, List.all_eq_true]
  refine forall_congr' fun c => imp_congr_right fun _ => ?_
  rw [streakLoop_iff _ _ _ 0 0 (Nat.zero_le _) (Nat.zero_le _), Nat.sub_zero,
    Nat.sub_zero]
  constructor
  · rintro ⟨_, _, h3, h4⟩
    exact ⟨h3, h4⟩
  · rintro ⟨h3, h4⟩
    exact ⟨fun hs => h3 (startsRun_hasRun hs),
      fun hs => h4 (startsRun_hasRun hs), h3, h4⟩

/-- When no duplicate error is raised, `add_matches` appends the whole
list to the draw's match collection. -/
theorem add_matches_ok_matchList (ms : List Match) :
    ∀ d : Draw, (Draw.add_matches d ms).2 = none →
      (Draw.add_matches d ms).1
        = { matchList := d.matchList ++ ms, season := d.season } := by
  induction ms with
  | nil =>
    intro d _
    cases d
    simp [Draw.add_matches]
  | cons m rest ih =>
    intro d hok
    by_cases hdup : d.matchList.any (fun m2 => matchEq m m2) = true
    · rw [show Draw.add_matches d (m :: rest)
          = (d, (Draw.add_match d m).2) by
        simp [Draw.add_matches, Draw.add_match, hdup]] at hok
      simp [Draw.add_match, hdup] at hok
    · rw [Bool.not_eq_true] at hdup
      have hstep : Draw.add_matches d (m :: rest)
          = Draw.add_matches
              { matchList := d.matchList ++ [m], season := d.season } rest := by
        simp [Draw.add_matches, Draw.add_match, hdup]
      rw [hstep] at hok ⊢
      rw [ih _ hok]
      simp

/-- C10: batch insertion is not atomic — when every match of `pre` inserts
cleanly and `m` then duplicates a match already present (a pre-existing one
or one of `pre`), `add_matches` stops with the duplicate error while the
matches of `pre` remain inserted. -/
theorem claim_C10_add_matches_not_atomic (d : Draw) (pre : List Match)
    (m : Match) (post : List Match)
    (hok : (Draw.add_matches d pre).2 = none)
    (hdup : (Draw.add_matches d pre).1.matchList.any
      (fun m2 => matchEq m m2) = true) :
    Draw.add_matches d (pre ++ m :: post)
        = ((Draw.add_matches d pre).1,
            some ("Le match " ++ m.club_home.id ++ " vs " ++ m.club_away.id
              ++ " est deja present"))
      ∧ (Draw.add_matches d pre).1.matchList = d.matchList ++ pre := by
  refine ⟨?_, by rw [add_matches_ok_matchList pre d hok]⟩
  induction pre generalizing d with
  | nil =>
    simp only [Draw.add_matches] at hdup ⊢
    simp [Draw.add_matches, Draw.add_match, hdup]
  | cons p pre2 ih =>
    by_cases hp : d.matchList.any (fun m2 => matchEq p m2) = true
    · rw [show Draw.add_matches d (p :: pre2)
          = (d, (Draw.add_match d p).2) by
        simp [Draw.add_matches, Draw.add_match, hp]] at hok
      simp [Draw.add_match, hp] at hok
    · rw [Bool.not_eq_true] at hp
      have hstep : ∀ rest : List Match, Draw.add_matches d (p :: rest)
          = Draw.add_matches
              { matchList := d.matchList ++ [p], season := d.season } rest := by
        intro rest
        simp [Draw.add_matches, Draw.add_match, hp]
      rw [hstep] at hok
      rw [hstep] at hdup
      rw [List.cons_append, hstep, hstep]
      exact ih _ hok hdup

/-- A concrete pot-1 English club used in witnesses. -/
def clubLIV : Club :=
  { id := "LIV", nom := "Liverpool", pays := "ENG", chapeau := .chapeau1 }

/-- A one-match draw used in witnesses. -/
def drawW : Draw :=
  { matchList := [{ club_home := clubPSG, club_away := clubRMA, journee := 1 }],
    season := "2025-26" }

/-- The non-duplicate match inserted first in the C10 witness. -/
def matchW2 : Match :=
  { club_home := clubRMA, club_away := clubLIV, journee := 2 }

/-- The duplicate match of the C10 witness (same identity as the match
already present in `drawW`). -/
def matchW1 : Match :=
  { club_home := clubPSG, club_away := clubRMA, journee := 1 }

/-- Witness for C10: inserting `[matchW2, matchW1]` into `drawW` stops at
the duplicate `matchW1`, with `matchW2` still inserted. -/
theorem claim_C10_add_matches_not_atomic_witness :
    (Draw.add_matches drawW [matchW2]).2 = none
      ∧ (Draw.add_matches drawW [matchW2]).1.matchList.any
          (fun m2 => matchEq matchW1 m2) = true
      ∧ (Draw.add_matches drawW ([matchW2] ++ matchW1 :: [])
          = ((Draw.add_matches drawW [matchW2]).1,
              some ("Le match " ++ matchW1.club_home.id ++ " vs "
                ++ matchW1.club_away.id ++ " est deja present"))
        ∧ (Draw.add_matches drawW [matchW2]).1.matchList
          = drawW.matchList ++ [matchW2]) :=
  ⟨by decide, by decide,
    claim_C10_add_matches_not_atomic drawW [matchW2] matchW1 []
      (by decide) (by decide)⟩

/-- Folding the club-set insertion only returns elements of the
accumulator or of the input list. -/
theorem mem_foldl_insertClub (l : List Club) :
    ∀ (acc : List Club) (x : Club),
      x ∈ l.foldl Draw.insertClub acc → x ∈ acc ∨ x ∈ l := by
  induction l with
  | nil =>
    intro acc x hx
    exact Or.inl hx
  | cons y l ih =>
    intro acc x hx
    rcases ih _ x hx with hacc | hl
    · unfold Draw.insertClub at hacc
      by_cases hy : acc.any (fun z => clubEq z y) = true
      · rw [if_pos hy] at hacc
        exact Or.inl hacc
      · rw [if_neg hy] at hacc
        rcases List.mem_append.mp hacc with h1 | h2
        · exact Or.inl h1
        · simp only [List.mem_singleton] at h2
          exact Or.inr (h2 ▸ List.mem_cons_self y l)
    · exact Or.inr (List.mem_cons_of_mem _ hl)

/-- Every member of `get_all_clubs` is the home or away club of some match
of the draw. -/
theorem mem_get_all_clubs (d : Draw) (x : Club) (hx : x ∈ d.get_all_clubs) :
    ∃ m ∈ d.matchList, x = m.club_home ∨ x = m.club_away := by
  rcases mem_foldl_insertClub _ [] x hx with h0 | hmem
  · cases h0
  · rcases List.mem_flatMap.mp hmem with ⟨m, hm, hin⟩
    simp only [List.mem_cons, List.mem_singleton, List.not_mem_nil,
      or_false] at hin
    exact ⟨m, hm, hin⟩

/-- C2 (amended): a club with zero matches has no representative in the
draw's club set, so rules 2–5 never evaluate it at all; conversely every
club the rules do evaluate appears in at least one match, so its counts
are never vacuous. -/
theorem claim_C2_zero_match_club_not_evaluated (d : Draw) (c : Club)
    (h : d.get_number_of_matches_for_club c = 0) :
    (∀ c2 ∈ d.get_all_clubs, c2.id ≠ c.id)
      ∧ ∀ c2 ∈ d.get_all_clubs,
          0 < d.get_number_of_matches_for_club c2 := by
  constructor
  · intro c2 hc2 heq
    rcases mem_get_all_clubs d c2 hc2 with ⟨m, hm, hin⟩
    have hinv : involves_club m c = true := by
      rcases hin with h1 | h1 <;>
        simp [involves_club, clubEq, ← h1, heq]
    have hmem : m ∈ d.matchList.filter (fun m2 => involves_club m2 c) :=
      List.mem_filter.mpr ⟨hm, hinv⟩
    rw [Draw.get_number_of_matches_for_club, Draw.get_matches_for_club,
      List.length_eq_zero] at h
    rw [h] at hmem
    cases hmem
  · intro c2 hc2
    rcases mem_get_all_clubs d c2 hc2 with ⟨m, hm, hin⟩
    have hinv : involves_club m c2 = true := by
      rcases hin with h1 | h1 <;> simp [involves_club, clubEq, ← h1]
    have hmem : m ∈ d.matchList.filter (fun m2 => involves_club m2 c2) :=
      List.mem_filter.mpr ⟨hm, hinv⟩
    rw [Draw.get_number_of_matches_for_club, Draw.get_matches_for_club]
    exact List.length_pos.mpr (List.ne_nil_of_mem hmem)

/-- Witness for the amended C2 at the one-match draw and an absent club. -/
theorem claim_C2_zero_match_club_not_evaluated_witness :
    drawW.get_number_of_matches_for_club clubLIV = 0
      ∧ ((∀ c2 ∈ drawW.get_all_clubs, c2.id ≠ clubLIV.id)
        ∧ ∀ c2 ∈ drawW.get_all_clubs,
            0 < drawW.get_number_of_matches_for_club c2) :=
  ⟨by decide, claim_C2_zero_match_club_not_evaluated drawW clubLIV (by decide)⟩

/-- The i-th club of the complete-graph counterexample draw. -/
def k9Club (i : Nat) : Club :=
  { id := "K" ++ toString i, nom := "Klub " ++ toString i, pays := "AAA",
    chapeau := .chapeau1 }

/-- A draw on nine clubs in which every pair meets exactly once: every
club of the draw plays exactly 8 = `MATCHES_PER_CLUB` matches. -/
def k9Draw : Draw :=
  { matchList := (List.range 9).flatMap (fun i =>
      (List.range 9).filterMap (fun j =>
        if i < j then
          some { club_home := k9Club i, club_away := k9Club j, journee := 1 }
        else none)),
    season := "2025-26" }

set_option maxRecDepth 4000 in
/-- Counterexample to C2 as stated: `k9Draw` is non-empty, `clubLIV`
appears in zero of its matches, yet rule 2 (`matches_per_club`) evaluates
to `true` — the zero-match club is not reported as violating it. -/
theorem claim_C2_zero_match_club_counterexample :
    0 < k9Draw.matchList.length
      ∧ k9Draw.get_number_of_matches_for_club clubLIV = 0
      ∧ UCLConstraints.check_matches_per_club k9Draw = true := by
  refine ⟨by decide, by decide, by decide⟩
